import Mathlib

-- Verification development for the SourceRenderer frame-orchestration core.
-- Shallow embedding of:
--   * src/engine/src/renderer/renderer_internal.rs (command processing,
--     frame-boundary promotion, interpolation step, render recovery)
--   * src/engine/src/renderer/renderer.rs (EndFrame counter / saturation)
--   * src/graphics/vulkan/src/buffer.rs (slab buffer allocator)
--   * src/graphics/vulkan/src/transfer.rs and lifetime_tracker.rs
--     (command-buffer lifetime tracking tied to fences)
-- Matrices (nalgebra Matrix4) and fov scalars (f32) are carried as opaque
-- payloads: the embedded routines move them between slots but never compute
-- with them, so they are modelled by type parameters M and F.

namespace SourceRendererSpec

/- ===== renderer_internal.rs : scene / view model ===== -/

-- DrawableType as matched by renderer_internal.rs
-- (`if let DrawableType::Static { can_move, .. }`); the variant's remaining
-- payload fields are never read by the embedded functions and are omitted,
-- and the non-Static variants are collapsed into `other`.
inductive DrawableType where
  | Static (can_move : Bool)
  | other
deriving DecidableEq, Repr

-- One element of `guard.elements`, with exactly the fields accessed by
-- receive_messages / interpolate_drawables.
structure Drawable (M : Type) where
  entity : Nat
  transform : M
  old_transform : M
  older_transform : M
  interpolated_transform : M
  drawable_type : DrawableType
deriving DecidableEq, Repr

-- The View fields touched by receive_messages / interpolate_drawables.
structure View (M F : Type) where
  elements : List (Drawable M)
  camera_transform : M
  old_camera_transform : M
  older_camera_transform : M
  interpolated_camera : M
  camera_fov : F
  old_camera_fov : F
  older_camera_fov : F
deriving DecidableEq, Repr

-- RendererCommand variants handled by receive_messages in
-- renderer_internal.rs.
inductive RendererCommand (M F : Type) where
  | EndFrame
  | UpdateCameraTransform (camera_transform_mat : M) (fov : F)
  | UpdateTransform (entity : Nat) (transform_mat : M)
  | Register (renderable : Drawable M)
  | UnregisterStatic (entity : Nat)
deriving DecidableEq, Repr

variable {M F : Type}

-- EndFrame branch, per-element body of `for element in &mut guard.elements`.
def endFrameElement (el : Drawable M) : Drawable M :=
  match el.drawable_type with
  | DrawableType.Static can_move =>
      if !can_move then
        { el with interpolated_transform := el.transform }
      else
        { el with older_transform := el.old_transform,
                  old_transform := el.transform }
  | _ => el

-- EndFrame branch of receive_messages: element promotion plus the camera
-- transform / fov promotion (the queued-frames counter decrement is modelled
-- separately by `stepCounter`).
def endFrameView (v : View M F) : View M F :=
  { v with
    elements := v.elements.map endFrameElement,
    older_camera_transform := v.old_camera_transform,
    old_camera_transform := v.camera_transform,
    older_camera_fov := v.old_camera_fov,
    old_camera_fov := v.camera_fov }

-- UpdateTransform branch: `iter_mut().find(|r| r.entity == entity)`, then
-- `element.transform = transform_mat` on the first match (if any).
def updateTransformElems : List (Drawable M) → Nat → M → List (Drawable M)
  | [], _, _ => []
  | el :: rest, entity, mat =>
      if el.entity == entity then { el with transform := mat } :: rest
      else el :: updateTransformElems rest entity mat

-- UnregisterStatic branch: `position(|r| r.entity == entity)` then
-- `elements.remove(index)`.
def unregisterElems (elems : List (Drawable M)) (entity : Nat) : List (Drawable M) :=
  match elems.findIdx? (fun r => r.entity == entity) with
  | some index => elems.eraseIdx index
  | none => elems

-- One iteration of the receive_messages match, acting on the View.
def applyCommand (v : View M F) : RendererCommand M F → View M F
  | RendererCommand.EndFrame => endFrameView v
  | RendererCommand.UpdateCameraTransform mat fov =>
      { v with camera_transform := mat, camera_fov := fov }
  | RendererCommand.UpdateTransform entity mat =>
      { v with elements := updateTransformElems v.elements entity mat }
  | RendererCommand.Register renderable =>
      { v with elements := v.elements ++ [renderable] }
  | RendererCommand.UnregisterStatic entity =>
      { v with elements := unregisterElems v.elements entity }

-- FIFO processing of a command sequence by the render thread.
def applyCommands (v : View M F) (cmds : List (RendererCommand M F)) : View M F :=
  cmds.foldl applyCommand v

-- interpolate_drawables, element loop: only `can_move` static drawables get
-- their interpolated transform recomputed. `interp older old` stands for
-- interpolate_transform_matrix(element.older_transform, element.old_transform,
-- frac) at the fixed per-call frac.
def interpolateDrawablesElems (interp : M → M → M) (elems : List (Drawable M)) :
    List (Drawable M) :=
  elems.map (fun el =>
    match el.drawable_type with
    | DrawableType.Static can_move =>
        if can_move then
          { el with interpolated_transform := interp el.older_transform el.old_transform }
        else el
    | _ => el)

/- ===== renderer.rs : queued-frames counter and saturation ===== -/

-- Events touching Renderer::queued_frames_counter: end_frame() does
-- fetch_add(1); the render thread's EndFrame branch calls
-- dec_queued_frames_counter(), i.e. fetch_sub(1).
inductive FrameEvent where
  | EndFrameSent
  | EndFrameProcessed
deriving DecidableEq, Repr

def stepCounter (c : Nat) : FrameEvent → Nat
  | FrameEvent.EndFrameSent => c + 1
  | FrameEvent.EndFrameProcessed => c - 1

def runCounter (c : Nat) (tr : List FrameEvent) : Nat :=
  tr.foldl stepCounter c

-- A trace is valid when every processed EndFrame had actually been sent
-- earlier and not yet processed: the render thread only decrements after
-- receiving an EndFrame message, and each message was preceded by the
-- matching increment in end_frame().
def validTraceB : Nat → List FrameEvent → Bool
  | _, [] => true
  | c, FrameEvent.EndFrameSent :: t => validTraceB (c + 1) t
  | c, FrameEvent.EndFrameProcessed :: t => decide (0 < c) && validTraceB (c - 1) t

def countSent (tr : List FrameEvent) : Nat :=
  tr.countP (fun ev => ev == FrameEvent.EndFrameSent)

def countProcessed (tr : List FrameEvent) : Nat :=
  tr.countP (fun ev => ev == FrameEvent.EndFrameProcessed)

-- Renderer::is_saturated: queued_frames_counter.load(SeqCst) > 1.
def isSaturated (c : Nat) : Bool :=
  decide (1 < c)

/- ===== renderer_internal.rs : RendererInternal::render recovery ===== -/

-- Oracle for one render() call: outcomes of the fallible collaborator calls
-- in the order the code consults them.
structure RenderEnv where
  first_render_ok : Bool
  recreate_ok : Bool
  old_format : Nat
  new_format : Nat
  old_sample_count : Nat
  new_sample_count : Nat
  second_render_ok : Bool
deriving DecidableEq, Repr

inductive RenderOutcome where
  | Presented
  | FrameDropped
  | Panicked
  | RetriedPresented
  | RetriedDropped
deriving DecidableEq, Repr

-- Control flow of RendererInternal::render after receive_messages /
-- interpolate_drawables; the second component counts graph.render() calls.
def renderFrame (e : RenderEnv) : RenderOutcome × Nat :=
  if e.first_render_ok then
    (RenderOutcome.Presented, 1)
  else if !e.recreate_ok then
    (RenderOutcome.FrameDropped, 1)
  else if e.new_format != e.old_format || e.new_sample_count != e.old_sample_count then
    (RenderOutcome.Panicked, 1)
  else if e.second_render_ok then
    (RenderOutcome.RetriedPresented, 2)
  else
    (RenderOutcome.RetriedDropped, 2)

/- ===== buffer.rs : slab buffer allocator ===== -/

inductive MemoryUsage where
  | GpuOnly
  | CpuOnly
  | CpuToGpu
  | GpuToCpu
deriving DecidableEq, Repr

-- BufferUsage bitflags; only the CONSTANT and STORAGE bits are inspected by
-- get_slice, the remaining bits are kept abstract in `rest` (they only enter
-- the BufferKey equality).
structure BufferUsage where
  constant : Bool
  storage : Bool
  rest : Nat
deriving DecidableEq, Repr

structure BufferKey where
  memory_usage : MemoryUsage
  buffer_usage : BufferUsage
deriving DecidableEq, Repr

-- A VkBufferSlice; `buffer` is the id of the parent VkBuffer (standing for
-- the Arc<VkBuffer> owning reference).
structure VkBufferSlice where
  buffer : Nat
  offset : Nat
  length : Nat
deriving DecidableEq, Repr

-- A VkBuffer slab: `slices` is the VecDeque free list, head = front.
structure VkBuffer where
  id : Nat
  slice_size : Nat
  slices : List VkBufferSlice
deriving DecidableEq, Repr

def SLICED_BUFFER_SIZE : Nat := 16384
def BIG_BUFFER_SLAB_SIZE : Nat := 4096
def BUFFER_SLAB_SIZE : Nat := 1024
def SMALL_BUFFER_SLAB_SIZE : Nat := 512
def TINY_BUFFER_SLAB_SIZE : Nat := 256

-- VkBuffer::new: the free list is filled by push_back with slices at offsets
-- i * slice_size for i in 0..slice_count.
def VkBuffer.new (id slice_size slice_count : Nat) : VkBuffer :=
  { id := id,
    slice_size := slice_size,
    slices := (List.range slice_count).map
      (fun i => { buffer := id, offset := i * slice_size, length := slice_size }) }

-- VkBuffer::return_slice: push_back on the free list.
def VkBuffer.return_slice (b : VkBuffer) (s : VkBufferSlice) : VkBuffer :=
  { b with slices := b.slices ++ [s] }

-- BufferAllocator state: buffers is the BTreeMap<BufferKey, Vec<Arc<VkBuffer>>>
-- as an association list; alloc_count counts VkBuffer::new calls; next_id
-- supplies fresh buffer identities; the two alignment limits come from
-- vk::PhysicalDeviceLimits.
structure BufferAllocator where
  next_id : Nat
  alloc_count : Nat
  buffers : List (BufferKey × List VkBuffer)
  min_uniform_buffer_offset_alignment : Nat
  min_storage_buffer_offset_alignment : Nat
deriving DecidableEq, Repr

-- Drop for VkBufferSlice: `self.buffer.return_slice(...)` — the slice goes
-- back to the slab it points to (ids are unique, so only its parent changes).
def dropVkBufferSlice (st : BufferAllocator) (s : VkBufferSlice) : BufferAllocator :=
  { st with buffers := st.buffers.map (fun kv =>
      (kv.1, kv.2.map (fun b => if b.id == s.buffer then b.return_slice s else b))) }

-- Alignment computation at the top of get_slice.
def computeAlignment (st : BufferAllocator) (usage : BufferUsage) : Nat :=
  let alignment := 4
  let alignment := if usage.constant then
      max alignment st.min_uniform_buffer_offset_alignment else alignment
  if usage.storage then
      max alignment st.min_storage_buffer_offset_alignment else alignment

-- The scan over matching_buffers: first slab with
-- slice_size % alignment == 0 && slice_size > length whose pop_front yields
-- a slice; returns the slice and the updated slab vector.
def scanBuffers (alignment length : Nat) :
    List VkBuffer → Option (VkBufferSlice × List VkBuffer)
  | [] => none
  | b :: rest =>
      if b.slice_size % alignment == 0 && length < b.slice_size then
        match b.slices with
        | s :: tail => some (s, { b with slices := tail } :: rest)
        | [] =>
            match scanBuffers alignment length rest with
            | some (s, rest2) => some (s, b :: rest2)
            | none => none
      else
        match scanBuffers alignment length rest with
        | some (s, rest2) => some (s, b :: rest2)
        | none => none

-- Tier choice for a new slab.
def chooseSliceSize (length alignment : Nat) : Nat :=
  let slice_size := max length alignment
  if slice_size ≤ TINY_BUFFER_SLAB_SIZE then TINY_BUFFER_SLAB_SIZE
  else if length ≤ SMALL_BUFFER_SLAB_SIZE then SMALL_BUFFER_SLAB_SIZE
  else if length ≤ BUFFER_SLAB_SIZE then BUFFER_SLAB_SIZE
  else BIG_BUFFER_SLAB_SIZE

-- BTreeMap entry(key).or_default() read side.
def bucketOf (st : BufferAllocator) (key : BufferKey) : List VkBuffer :=
  match st.buffers.find? (fun kv => kv.1 == key) with
  | some kv => kv.2
  | none => []

-- Writing a bucket back into the map.
def setBucket (buffers : List (BufferKey × List VkBuffer)) (key : BufferKey)
    (v : List VkBuffer) : List (BufferKey × List VkBuffer) :=
  match buffers.findIdx? (fun kv => kv.1 == key) with
  | some i => buffers.set i (key, v)
  | none => buffers ++ [(key, v)]

-- BufferAllocator::get_slice. Dedicated buffers for length >
-- BIG_BUFFER_SLAB_SIZE are not inserted into the map (the returned slice is
-- their only owner); otherwise scan, and on a miss allocate a new slab of
-- SLICED_BUFFER_SIZE / slice_size slices, pop its front slice and push the
-- slab into the bucket. The empty-list match arms mirror unreachable
-- pop_front().unwrap() calls on freshly built nonempty free lists.
def BufferAllocator.get_slice (st : BufferAllocator) (memory_usage : MemoryUsage)
    (buffer_usage : BufferUsage) (length : Nat) : VkBufferSlice × BufferAllocator :=
  if BIG_BUFFER_SLAB_SIZE < length then
    let buffer := VkBuffer.new st.next_id length 1
    let st2 := { st with next_id := st.next_id + 1, alloc_count := st.alloc_count + 1 }
    match buffer.slices with
    | slice :: _ => (slice, st2)
    | [] => ({ buffer := st.next_id, offset := 0, length := length }, st2)
  else
    let alignment := computeAlignment st buffer_usage
    let key : BufferKey := { memory_usage := memory_usage, buffer_usage := buffer_usage }
    let bucket := bucketOf st key
    match scanBuffers alignment length bucket with
    | some (slice, bucket2) =>
        (slice, { st with buffers := setBucket st.buffers key bucket2 })
    | none =>
        let slice_size := chooseSliceSize length alignment
        let buffer := VkBuffer.new st.next_id slice_size (SLICED_BUFFER_SIZE / slice_size)
        let st2 := { st with next_id := st.next_id + 1, alloc_count := st.alloc_count + 1 }
        match buffer.slices with
        | slice :: restSlices =>
            let pushed := bucket ++ [{ buffer with slices := restSlices }]
            (slice, { st2 with buffers := setBucket st.buffers key pushed })
        | [] => ({ buffer := st.next_id, offset := 0, length := length }, st2)

/- ===== transfer.rs / lifetime_tracker.rs : fence-gated lifetime ===== -/

-- VkLifetimeTrackers from lifetime_tracker.rs: per-recording accumulation of
-- strong references to GPU objects, modelled by ids.
structure VkLifetimeTrackers where
  semaphores : List Nat
  fences : List Nat
  buffers : List Nat
  textures : List Nat
  texture_views : List Nat
  render_passes : List Nat
  frame_buffers : List Nat
  samplers : List Nat
  pipelines : List Nat
deriving DecidableEq, Repr

def VkLifetimeTrackers.reset (_t : VkLifetimeTrackers) : VkLifetimeTrackers :=
  { semaphores := [], fences := [], buffers := [], textures := [],
    texture_views := [], render_passes := [], frame_buffers := [],
    samplers := [], pipelines := [] }

def VkLifetimeTrackers.is_empty (t : VkLifetimeTrackers) : Bool :=
  t.texture_views.isEmpty && t.semaphores.isEmpty && t.fences.isEmpty
    && t.buffers.isEmpty && t.textures.isEmpty && t.render_passes.isEmpty
    && t.frame_buffers.isEmpty && t.samplers.isEmpty && t.pipelines.isEmpty

-- The tracker variant constructed inside transfer.rs (command::VkLifetimeTrackers
-- of that revision): buffers, textures, render_passes, frame_buffers.
structure VkCmdLifetimeTrackers where
  buffers : List Nat
  textures : List Nat
  render_passes : List Nat
  frame_buffers : List Nat
deriving DecidableEq, Repr

-- VkTransferCommandBuffer: fence is an id into the external signaled map.
structure VkTransferCommandBuffer where
  cmd_buffer : Nat
  trackers : VkCmdLifetimeTrackers
  fence : Nat
deriving DecidableEq, Repr

-- VkTransferInner (the Mutex-guarded state of VkTransfer).
structure VkTransferInner where
  current_transfer_buffer : Option VkTransferCommandBuffer
  current_graphics_buffer : VkTransferCommandBuffer
  used_graphics_buffers : List VkTransferCommandBuffer
deriving DecidableEq, Repr

-- VkTransfer::try_free_used_buffers:
-- used_graphics_buffers.retain(|cb| !cb.fence.is_signaled()); a dropped
-- command buffer drops its trackers and all held references with it.
def tryFreeUsedBuffers (signaled : Nat → Bool) (inner : VkTransferInner) :
    VkTransferInner :=
  { inner with used_graphics_buffers :=
      inner.used_graphics_buffers.filter (fun cb => !(signaled cb.fence)) }

-- VkTransfer::flush: reuse the front used buffer only if its fence is
-- signaled, otherwise take a freshly allocated one (`fresh`); the old current
-- buffer is submitted and pushed to the back of used_graphics_buffers.
-- Returns the new inner state and whether the front buffer was reused.
def flushTransfer (signaled : Nat → Bool) (fresh : VkTransferCommandBuffer)
    (inner : VkTransferInner) : VkTransferInner × Bool :=
  let reuse_first :=
    match inner.used_graphics_buffers.head? with
    | some cb => signaled cb.fence
    | none => false
  let popped :=
    if reuse_first then
      match inner.used_graphics_buffers with
      | cb :: tail => (cb, tail)
      | [] => (fresh, [])
    else (fresh, inner.used_graphics_buffers)
  let old := inner.current_graphics_buffer
  ({ inner with current_graphics_buffer := popped.1,
                used_graphics_buffers := popped.2 ++ [old] }, reuse_first)

/- ===== derived counting notions and claim-side formalisations ===== -/

-- Number of live drawables with a given entity id.
def countEntity {M : Type} (elems : List (Drawable M)) (e : Nat) : Nat :=
  elems.countP (fun el => el.entity == e)

-- Net algebraic effect of one command on the number of live entries for
-- entity e: Register adds one, UnregisterStatic removes one when one exists,
-- all other commands leave the membership untouched.
def netStep {M F : Type} (c : Nat) (e : Nat) : RendererCommand M F → Nat
  | RendererCommand.Register r => if r.entity == e then c + 1 else c
  | RendererCommand.UnregisterStatic x => if x == e then c - 1 else c
  | _ => c

def netCount {M F : Type} (c : Nat) (e : Nat) : List (RendererCommand M F) → Nat
  | [] => c
  | cmd :: t => netCount (netStep c e cmd) e t

-- Formalisation of the claim sentence for C4 (spec words, for comparison
-- with the code's behaviour): an entity is predicted live exactly when some
-- Register for it occurs with no later UnregisterStatic for it.
def claimedLiveB {M F : Type} (cmds : List (RendererCommand M F)) (e : Nat) : Bool :=
  (List.range cmds.length).any (fun i =>
    (match cmds[i]? with
     | some (RendererCommand.Register r) => r.entity == e
     | _ => false)
    &&
    (List.range cmds.length).all (fun j =>
      if i < j then
        match cmds[j]? with
        | some (RendererCommand.UnregisterStatic x) => !(x == e)
        | _ => true
      else true))

/- ===== concrete instances for witnesses and counterexamples ===== -/

def exDrawableMovable : Drawable Nat :=
  { entity := 7, transform := 3, old_transform := 2, older_transform := 1,
    interpolated_transform := 9, drawable_type := DrawableType.Static true }

def exDrawableFixed : Drawable Nat :=
  { entity := 8, transform := 5, old_transform := 4, older_transform := 6,
    interpolated_transform := 0, drawable_type := DrawableType.Static false }

def exDrawable0 : Drawable Nat :=
  { entity := 0, transform := 1, old_transform := 1, older_transform := 1,
    interpolated_transform := 1, drawable_type := DrawableType.Static true }

def exView : View Nat Nat :=
  { elements := [exDrawableMovable, exDrawableFixed],
    camera_transform := 11, old_camera_transform := 12, older_camera_transform := 13,
    interpolated_camera := 14, camera_fov := 21, old_camera_fov := 22,
    older_camera_fov := 23 }

def exViewEmpty : View Nat Nat :=
  { elements := [], camera_transform := 0, old_camera_transform := 0,
    older_camera_transform := 0, interpolated_camera := 0, camera_fov := 0,
    old_camera_fov := 0, older_camera_fov := 0 }

-- Register the same entity twice, then unregister it once.
def exRegDup : List (RendererCommand Nat Nat) :=
  [RendererCommand.Register exDrawable0, RendererCommand.Register exDrawable0,
   RendererCommand.UnregisterStatic 0]

def exUsage : BufferUsage := { constant := false, storage := false, rest := 0 }

def exKey : BufferKey := { memory_usage := MemoryUsage.GpuOnly, buffer_usage := exUsage }

def exSliceLow : VkBufferSlice := { buffer := 0, offset := 0, length := 256 }

def exSliceHigh : VkBufferSlice := { buffer := 0, offset := 256, length := 256 }

-- A slab with one free slice (exSliceHigh); exSliceLow is leased out.
def exSlabC5 : VkBuffer := { id := 0, slice_size := 256, slices := [exSliceHigh] }

def exAllocC5 : BufferAllocator :=
  { next_id := 1, alloc_count := 1, buffers := [(exKey, [exSlabC5])],
    min_uniform_buffer_offset_alignment := 256,
    min_storage_buffer_offset_alignment := 256 }

-- A fully leased-out slab; releasing exSliceLow into it gives the state for
-- the tier-boundary counterexample.
def exSlabDrained : VkBuffer := { id := 0, slice_size := 256, slices := [] }

def exAllocDrained : BufferAllocator :=
  { next_id := 1, alloc_count := 1, buffers := [(exKey, [exSlabDrained])],
    min_uniform_buffer_offset_alignment := 256,
    min_storage_buffer_offset_alignment := 256 }

def exAllocC6 : BufferAllocator := dropVkBufferSlice exAllocDrained exSliceLow

def exTrackers : VkCmdLifetimeTrackers :=
  { buffers := [5], textures := [6], render_passes := [], frame_buffers := [] }

def exEmptyTrackers : VkCmdLifetimeTrackers :=
  { buffers := [], textures := [], render_passes := [], frame_buffers := [] }

def exCbSignaled : VkTransferCommandBuffer :=
  { cmd_buffer := 1, trackers := exTrackers, fence := 0 }

def exCbPending : VkTransferCommandBuffer :=
  { cmd_buffer := 2, trackers := exTrackers, fence := 1 }

def exFresh : VkTransferCommandBuffer :=
  { cmd_buffer := 3, trackers := exEmptyTrackers, fence := 2 }

def exCurrent : VkTransferCommandBuffer :=
  { cmd_buffer := 0, trackers := exEmptyTrackers, fence := 3 }

-- Only fence 0 has been signaled by the GPU.
def exSignaled : Nat → Bool := fun f => f == 0

def exInner : VkTransferInner :=
  { current_transfer_buffer := none, current_graphics_buffer := exCurrent,
    used_graphics_buffers := [exCbSignaled, exCbPending] }

def exEnvMismatch : RenderEnv :=
  { first_render_ok := false, recreate_ok := true, old_format := 1, new_format := 2,
    old_sample_count := 4, new_sample_count := 4, second_render_ok := true }

def exEnvRecovered : RenderEnv :=
  { first_render_ok := false, recreate_ok := true, old_format := 1, new_format := 1,
    old_sample_count := 4, new_sample_count := 4, second_render_ok := true }

/- ===== helper lemmas ===== -/

variable {M F : Type}

theorem findIdx?_cons0 {α : Type} (p : α → Bool) (x : α) (xs : List α) :
    List.findIdx? p (x :: xs) =
      if p x then some 0 else (List.findIdx? p xs).map (fun j => j + 1) := by
  rw [List.findIdx?_cons]
  rcases h : p x with _ | _
  · simp [h, List.findIdx?_succ]
  · simp [h]

theorem unregisterElems_cons (a : Drawable M) (l : List (Drawable M)) (x : Nat) :
    unregisterElems (a :: l) x =
      if a.entity == x then l else a :: unregisterElems l x := by
  unfold unregisterElems
  rw [findIdx?_cons0]
  rcases h : a.entity == x with _ | _
  · simp only [h, Bool.false_eq_true, if_false]
    cases hf : List.findIdx? (fun r => r.entity == x) l with
    | none => simp
    | some j => simp [List.eraseIdx_cons_succ]
  · simp [h]

theorem endFrameElement_entity (el : Drawable M) :
    (endFrameElement el).entity = el.entity := by
  unfold endFrameElement
  cases h : el.drawable_type with
  | Static can_move => cases can_move <;> simp
  | other => rfl

theorem updateTransformElems_id (l : List (Drawable M)) (e : Nat) (m : M)
    (h : ∀ el ∈ l, el.entity ≠ e) : updateTransformElems l e m = l := by
  induction l with
  | nil => rfl
  | cons a t ih =>
      have ha : a.entity ≠ e := h a (List.mem_cons_self a t)
      simp only [updateTransformElems, beq_iff_eq]
      rw [if_neg ha, ih (fun el hel => h el (List.mem_cons_of_mem a hel))]

theorem updateTransformElems_set (l : List (Drawable M)) (e : Nat) (m : M) :
    ∀ (i : Nat) (el : Drawable M),
      List.findIdx? (fun r => r.entity == e) l = some i →
      l[i]? = some el →
      updateTransformElems l e m = l.set i { el with transform := m } := by
  induction l with
  | nil => intro i el h; simp [List.findIdx?] at h
  | cons a t ih =>
      intro i el hidx hget
      rw [findIdx?_cons0] at hidx
      rcases h : a.entity == e with _ | _
      · have hne : ¬ ((a.entity == e) = true) := by simp [h]
        rw [if_neg hne, Option.map_eq_some'] at hidx
        obtain ⟨j, hj, hji⟩ := hidx
        subst hji
        simp only [List.getElem?_cons_succ] at hget
        simp only [updateTransformElems, h, Bool.false_eq_true, if_false,
          List.set_cons_succ]
        rw [ih j el hj hget]
      · rw [if_pos h] at hidx
        injection hidx with h0
        subst h0
        simp only [List.getElem?_cons_zero, Option.some.injEq] at hget
        subst hget
        simp [updateTransformElems, h]

theorem updateTransformElems_interpolated (l : List (Drawable M)) (e : Nat) (m : M)
    (i : Nat) :
    ((updateTransformElems l e m)[i]?).map (fun el => el.interpolated_transform) =
      (l[i]?).map (fun el => el.interpolated_transform) := by
  induction l generalizing i with
  | nil => rfl
  | cons a t ih =>
      rcases h : a.entity == e with _ | _
      · cases i with
        | zero => simp [updateTransformElems, h]
        | succ j => simp [updateTransformElems, h, ih j]
      · cases i with
        | zero => simp [updateTransformElems, h]
        | succ j => simp [updateTransformElems, h]

/- ===== claim theorems ===== -/

/-- Claim C1: processing an EndFrame command promotes, for every movable
(can_move = true) static drawable, its current transform into the previous
slot and the former previous transform into the older slot (leaving entity,
current transform and interpolated transform untouched), and promotes the
camera's current transform and fov into their previous slots (and the former
previous ones into the older slots). -/
theorem endFrame_promotes (v : View M F) :
    (∀ (i : Nat) (el : Drawable M), v.elements[i]? = some el →
        el.drawable_type = DrawableType.Static true →
        (applyCommand v RendererCommand.EndFrame).elements[i]? =
          some { el with older_transform := el.old_transform,
                         old_transform := el.transform }) ∧
    (applyCommand v RendererCommand.EndFrame).old_camera_transform = v.camera_transform ∧
    (applyCommand v RendererCommand.EndFrame).older_camera_transform = v.old_camera_transform ∧
    (applyCommand v RendererCommand.EndFrame).old_camera_fov = v.camera_fov ∧
    (applyCommand v RendererCommand.EndFrame).older_camera_fov = v.old_camera_fov := by
  refine ⟨?_, rfl, rfl, rfl, rfl⟩
  intro i el h hel
  simp only [applyCommand, endFrameView, List.getElem?_map, h, Option.map_some,
    Option.some.injEq]
  simp [endFrameElement, hel]

/-- Witness for C1 at a concrete view: the movable drawable at index 0 gets
its transforms promoted and the camera slots are promoted. -/
theorem endFrame_promotes_witness :
    (applyCommand exView RendererCommand.EndFrame).elements[0]? =
      some { exDrawableMovable with
             older_transform := exDrawableMovable.old_transform,
             old_transform := exDrawableMovable.transform } ∧
    (applyCommand exView RendererCommand.EndFrame).old_camera_transform =
      exView.camera_transform := by
  have h := @endFrame_promotes Nat Nat exView
  exact ⟨h.1 0 exDrawableMovable (by decide) (by decide), h.2.1⟩

/-- Claim C9: processing UpdateTransform(entity, matrix) looks up the first
drawable with that entity id; when no registered drawable has the id the
command leaves the whole view unchanged (silent no-op, no error value
exists), and when one does, only that drawable's current transform is set to
the matrix (every other element and every camera field is untouched). -/
theorem updateTransform_silent_noop (v : View M F) (entity : Nat) (mat : M) :
    ((∀ el ∈ v.elements, el.entity ≠ entity) →
        applyCommand v (RendererCommand.UpdateTransform entity mat) = v) ∧
    (∀ (i : Nat) (el : Drawable M),
        List.findIdx? (fun r => r.entity == entity) v.elements = some i →
        v.elements[i]? = some el →
        applyCommand v (RendererCommand.UpdateTransform entity mat) =
          { v with elements := v.elements.set i { el with transform := mat } }) := by
  constructor
  · intro h
    simp only [applyCommand]
    rw [updateTransformElems_id v.elements entity mat h]
  · intro i el hidx hget
    simp only [applyCommand]
    rw [updateTransformElems_set v.elements entity mat i el hidx hget]

/-- Witness for C9: an unknown entity id leaves the concrete view unchanged,
and a known one rewrites exactly the matching element's transform. -/
theorem updateTransform_silent_noop_witness :
    applyCommand exView (RendererCommand.UpdateTransform 99 42) = exView ∧
    applyCommand exView (RendererCommand.UpdateTransform 8 42) =
      { exView with elements :=
          exView.elements.set 1 { exDrawableFixed with transform := 42 } } := by
  constructor
  · exact (updateTransform_silent_noop exView 99 42).1 (by decide)
  · exact (updateTransform_silent_noop exView 8 42).2 1 exDrawableFixed (by decide) (by decide)

/-- Claim C10: a drawable registered with can_move = false is never
interpolated: the per-frame interpolation step leaves it entirely unchanged
(only can_move = true static drawables are recomputed), UpdateTransform never
touches any interpolated transform, and an EndFrame sets the non-movable
drawable's interpolated transform directly to its then-current transform. -/
theorem non_movable_not_interpolated (interp : M → M → M) (v : View M F)
    (entity : Nat) (mat : M) :
    (∀ (i : Nat) (el : Drawable M), v.elements[i]? = some el →
        el.drawable_type = DrawableType.Static false →
        (interpolateDrawablesElems interp v.elements)[i]? = some el) ∧
    (∀ (i : Nat),
        ((updateTransformElems v.elements entity mat)[i]?).map
            (fun el => el.interpolated_transform) =
          (v.elements[i]?).map (fun el => el.interpolated_transform)) ∧
    (∀ (i : Nat) (el : Drawable M), v.elements[i]? = some el →
        el.drawable_type = DrawableType.Static false →
        (applyCommand v RendererCommand.EndFrame).elements[i]? =
          some { el with interpolated_transform := el.transform }) := by
  refine ⟨?_, ?_, ?_⟩
  · intro i el h hel
    simp only [interpolateDrawablesElems, List.getElem?_map, h, Option.map_some]
    simp [hel]
  · intro i
    exact updateTransformElems_interpolated v.elements entity mat i
  · intro i el h hel
    simp only [applyCommand, endFrameView, List.getElem?_map, h, Option.map_some,
      Option.some.injEq]
    simp [endFrameElement, hel]

/-- Witness for C10 at a concrete view: the non-movable drawable at index 1
survives the interpolation step unchanged and gets its interpolated transform
snapped to its current transform by EndFrame. -/
theorem non_movable_not_interpolated_witness :
    (interpolateDrawablesElems (fun a b => a + b) exView.elements)[1]? =
      some exDrawableFixed ∧
    (applyCommand exView RendererCommand.EndFrame).elements[1]? =
      some { exDrawableFixed with
             interpolated_transform := exDrawableFixed.transform } := by
  have h := @non_movable_not_interpolated Nat Nat (fun a b => a + b) exView 0 0
  exact ⟨h.1 1 exDrawableFixed (by decide) (by decide),
         h.2.2 1 exDrawableFixed (by decide) (by decide)⟩

theorem countEntity_cons (a : Drawable M) (t : List (Drawable M)) (e : Nat) :
    countEntity (a :: t) e = countEntity t e + if a.entity == e then 1 else 0 := by
  simp [countEntity, List.countP_cons]

theorem countEntity_append_single (l : List (Drawable M)) (r : Drawable M) (e : Nat) :
    countEntity (l ++ [r]) e = countEntity l e + if r.entity == e then 1 else 0 := by
  simp [countEntity, List.countP_append, List.countP_cons]

theorem countEntity_updateTransform (l : List (Drawable M)) (x : Nat) (m : M) (e : Nat) :
    countEntity (updateTransformElems l x m) e = countEntity l e := by
  induction l with
  | nil => rfl
  | cons a t ih =>
      rcases h : a.entity == x with _ | _
      · simp only [updateTransformElems, h, Bool.false_eq_true, if_false]
        rw [countEntity_cons, countEntity_cons, ih]
      · simp only [updateTransformElems, h, if_true]
        rw [countEntity_cons, countEntity_cons]

theorem countEntity_endFrame (l : List (Drawable M)) (e : Nat) :
    countEntity (l.map endFrameElement) e = countEntity l e := by
  unfold countEntity
  rw [List.countP_map]
  apply List.countP_congr
  intro a _
  simp [Function.comp, endFrameElement_entity]

theorem countEntity_unregister (l : List (Drawable M)) (x : Nat) (e : Nat) :
    countEntity (unregisterElems l x) e =
      if x == e then countEntity l e - 1 else countEntity l e := by
  induction l with
  | nil =>
      simp only [unregisterElems, List.findIdx?, countEntity, List.countP_nil]
      split <;> rfl
  | cons a t ih =>
      rw [unregisterElems_cons]
      by_cases hax : (a.entity == x) = true
      · rw [if_pos hax, countEntity_cons]
        have hax' : a.entity = x := by simpa using hax
        by_cases hxe : (x == e) = true
        · have hxe' : x = e := by simpa using hxe
          have hae : (a.entity == e) = true := by simp [hax', hxe']
          rw [if_pos hxe, hae]
          simp
        · have hxe' : x ≠ e := by simpa using hxe
          have hae : (a.entity == e) = false := by simp [hax', hxe']
          rw [if_neg hxe, hae]
          simp
      · rw [if_neg hax, countEntity_cons, ih, countEntity_cons]
        have hax' : a.entity ≠ x := by simpa using hax
        by_cases hxe : (x == e) = true
        · have hxe' : x = e := by simpa using hxe
          have hae : (a.entity == e) = false := by
            subst hxe'
            simp [hax']
          rw [if_pos hxe, if_pos hxe, hae]
          simp
        · rw [if_neg hxe, if_neg hxe]

theorem countEntity_applyCommand (v : View M F) (cmd : RendererCommand M F) (e : Nat) :
    countEntity (applyCommand v cmd).elements e =
      netStep (countEntity v.elements e) e cmd := by
  cases cmd with
  | EndFrame =>
      simp only [applyCommand, endFrameView, netStep]
      exact countEntity_endFrame v.elements e
  | UpdateCameraTransform mat fov => rfl
  | UpdateTransform entity mat =>
      simp only [applyCommand, netStep]
      exact countEntity_updateTransform v.elements entity mat e
  | Register r =>
      simp only [applyCommand, netStep]
      rw [countEntity_append_single]
      rcases h : r.entity == e with _ | _ <;> simp [h]
  | UnregisterStatic x =>
      simp only [applyCommand, netStep]
      exact countEntity_unregister v.elements x e

theorem countEntity_applyCommands (v : View M F) (cmds : List (RendererCommand M F))
    (e : Nat) :
    countEntity (applyCommands v cmds).elements e =
      netCount (countEntity v.elements e) e cmds := by
  induction cmds generalizing v with
  | nil => rfl
  | cons c t ih =>
      simp only [applyCommands, List.foldl_cons, netCount]
      rw [← countEntity_applyCommand v c e]
      exact ih (applyCommand v c)

/-- Claim C4 (amended): for any FIFO-processed command sequence, the number
of live drawables carrying an entity id equals the net multiset effect of the
sequence — each Register for the id adds one entry and each UnregisterStatic
removes one entry when at least one exists — and the id is live exactly when
that net count is positive. (The claim as literally stated — present iff some
Register has no later Unregister — fails for duplicate registrations, see the
counterexample.) -/
theorem register_unregister_net_effect (v : View M F)
    (cmds : List (RendererCommand M F)) (e : Nat) :
    countEntity (applyCommands v cmds).elements e =
      netCount (countEntity v.elements e) e cmds ∧
    ((∃ el ∈ (applyCommands v cmds).elements, el.entity = e) ↔
      0 < netCount (countEntity v.elements e) e cmds) := by
  refine ⟨countEntity_applyCommands v cmds e, ?_⟩
  rw [← countEntity_applyCommands v cmds e]
  constructor
  · rintro ⟨el, hmem, he⟩
    exact List.countP_pos_iff.mpr ⟨el, hmem, by simp [he]⟩
  · intro h
    obtain ⟨el, hmem, he⟩ := List.countP_pos_iff.mp h
    exact ⟨el, hmem, by simpa using he⟩

/-- Claim C4 counterexample: with the FIFO sequence Register(0), Register(0),
UnregisterStatic(0), entity 0 is still live after processing, although an
UnregisterStatic for it was processed later than every Register — the live
set therefore differs from the claimed net algebraic effect. -/
theorem register_unregister_net_effect_counterexample :
    (∃ el ∈ (applyCommands exViewEmpty exRegDup).elements, el.entity = 0) ∧
    claimedLiveB exRegDup 0 = false := by decide

theorem countSent_cons (ev : FrameEvent) (t : List FrameEvent) :
    countSent (ev :: t) =
      countSent t + if ev = FrameEvent.EndFrameSent then 1 else 0 := by
  cases ev <;> simp [countSent, List.countP_cons]

theorem countProcessed_cons (ev : FrameEvent) (t : List FrameEvent) :
    countProcessed (ev :: t) =
      countProcessed t + if ev = FrameEvent.EndFrameProcessed then 1 else 0 := by
  cases ev <;> simp [countProcessed, List.countP_cons]

theorem validTraceB_count (tr : List FrameEvent) :
    ∀ c, validTraceB c tr = true →
      runCounter c tr + countProcessed tr = c + countSent tr := by
  induction tr with
  | nil => intro c _; simp [runCounter, countSent, countProcessed]
  | cons ev t ih =>
      intro c hv
      cases ev with
      | EndFrameSent =>
          simp only [validTraceB] at hv
          have := ih (c + 1) hv
          rw [countSent_cons, countProcessed_cons]
          simp only [runCounter, List.foldl_cons, stepCounter] at *
          simp
          omega
      | EndFrameProcessed =>
          simp only [validTraceB, Bool.and_eq_true, decide_eq_true_eq] at hv
          have := ih (c - 1) hv.2
          have hc := hv.1
          rw [countSent_cons, countProcessed_cons]
          simp only [runCounter, List.foldl_cons, stepCounter] at *
          simp
          omega

theorem runCounter_drain (c d : Nat) :
    runCounter c (List.replicate d FrameEvent.EndFrameProcessed) = c - d := by
  induction d generalizing c with
  | zero => simp [runCounter]
  | succ k ih =>
      simp only [List.replicate_succ, runCounter, List.foldl_cons, stepCounter]
      have := ih (c - 1)
      simp only [runCounter] at this
      omega

/-- Claim C2: end_frame() increments the queued-frames counter and the render
thread's processing of an EndFrame decrements it; is_saturated() is true
exactly when the counter exceeds the fixed threshold 1; for every valid
event interleaving the counter equals sends minus processes, so after enough
EndFrame sends saturation holds and stays until enough EndFrames have been
drained to bring the counter back to at most 1. -/
theorem end_frame_backpressure :
    (∀ c, stepCounter c FrameEvent.EndFrameSent = c + 1) ∧
    (∀ c, stepCounter c FrameEvent.EndFrameProcessed = c - 1) ∧
    (∀ c tr, validTraceB c tr = true →
        runCounter c tr + countProcessed tr = c + countSent tr) ∧
    (∀ c tr, validTraceB c tr = true →
        (isSaturated (runCounter c tr) = true ↔
          1 + countProcessed tr < c + countSent tr)) ∧
    (∀ c d, isSaturated (runCounter c (List.replicate d FrameEvent.EndFrameProcessed)) = true ↔
        1 + d < c) := by
  refine ⟨fun c => rfl, fun c => rfl, fun c tr h => validTraceB_count tr c h, ?_, ?_⟩
  · intro c tr h
    have hcount := validTraceB_count tr c h
    simp only [isSaturated, decide_eq_true_eq]
    omega
  · intro c d
    rw [runCounter_drain]
    simp only [isSaturated, decide_eq_true_eq]
    omega

/-- Witness for C2: three sends saturate from an empty counter and one drain
of a counter at 3 leaves it saturated while two drains do not. -/
theorem end_frame_backpressure_witness :
    (isSaturated (runCounter 0 [FrameEvent.EndFrameSent, FrameEvent.EndFrameSent,
        FrameEvent.EndFrameSent]) = true ↔ 1 + 0 < 0 + 3) ∧
    (isSaturated (runCounter 3 (List.replicate 1 FrameEvent.EndFrameProcessed)) = true ↔
      1 + 1 < 3) ∧
    (isSaturated (runCounter 3 (List.replicate 2 FrameEvent.EndFrameProcessed)) = true ↔
      1 + 2 < 3) := by
  have h := end_frame_backpressure
  refine ⟨?_, h.2.2.2.2 3 1, h.2.2.2.2 3 2⟩
  have h4 := h.2.2.2.1 0
    [FrameEvent.EndFrameSent, FrameEvent.EndFrameSent, FrameEvent.EndFrameSent]
    (by decide)
  simpa [countSent, countProcessed] using h4

/-- Claim C3: when graph.render() fails, RendererInternal::render waits for
idle, recreates the swapchain and graph and retries rendering exactly once in
that frame (so at most two render attempts ever happen, and exactly two
happen precisely when the first failed, recreation succeeded and the
recreated swapchain kept format and sample count); the frame is dropped if
swapchain recreation fails or if the retry fails; a format or sample-count
change on the recreated swapchain panics instead of continuing. -/
theorem render_recovery (e : RenderEnv) :
    ((renderFrame e).2 ≤ 2) ∧
    ((renderFrame e).2 = 2 ↔ e.first_render_ok = false ∧ e.recreate_ok = true ∧
        e.new_format = e.old_format ∧ e.new_sample_count = e.old_sample_count) ∧
    ((renderFrame e).1 = RenderOutcome.Panicked ↔
        e.first_render_ok = false ∧ e.recreate_ok = true ∧
          (e.new_format ≠ e.old_format ∨ e.new_sample_count ≠ e.old_sample_count)) ∧
    (e.first_render_ok = false → e.recreate_ok = false →
        (renderFrame e).1 = RenderOutcome.FrameDropped) ∧
    (e.first_render_ok = false → e.recreate_ok = true →
        e.new_format = e.old_format → e.new_sample_count = e.old_sample_count →
        e.second_render_ok = false →
        (renderFrame e).1 = RenderOutcome.RetriedDropped) := by
  obtain ⟨f, r, ofmt, nfmt, osc, nsc, s⟩ := e
  cases f <;> cases r <;> cases s <;>
    by_cases h1 : nfmt = ofmt <;> by_cases h2 : nsc = osc <;>
      simp [renderFrame, h1, h2]

/-- Witness for C3 at concrete environments: a format mismatch after
recreation panics, and a matching recreation yields exactly two render
attempts. -/
theorem render_recovery_witness :
    (renderFrame exEnvMismatch).1 = RenderOutcome.Panicked ∧
    (renderFrame exEnvRecovered).2 = 2 := by
  constructor
  · exact ((render_recovery exEnvMismatch).2.2.1).mpr (by decide)
  · exact ((render_recovery exEnvRecovered).2.1).mpr (by decide)

/-- Claim C7: a transfer command buffer's tracker (and the GPU-object
references it holds) is dropped from the used list only once its fence is
signaled — try_free_used_buffers retains every buffer whose fence is
unsignaled and only removes signaled ones — flush never drops a used buffer
at all (it moves the old recording to the back of the used list), a
tracker/command-buffer pair is reused as the new current recording only when
its fence is signaled, and clearing a tracker via reset leaves it holding no
references. -/
theorem tracker_fence_gated (signaled : Nat → Bool) (inner : VkTransferInner)
    (fresh : VkTransferCommandBuffer) :
    (∀ cb ∈ inner.used_graphics_buffers, signaled cb.fence = false →
        cb ∈ (tryFreeUsedBuffers signaled inner).used_graphics_buffers) ∧
    (∀ cb ∈ inner.used_graphics_buffers,
        cb ∉ (tryFreeUsedBuffers signaled inner).used_graphics_buffers →
        signaled cb.fence = true) ∧
    ((flushTransfer signaled fresh inner).2 = true →
        ∃ cb, inner.used_graphics_buffers.head? = some cb ∧
          signaled cb.fence = true ∧
          (flushTransfer signaled fresh inner).1.current_graphics_buffer = cb) ∧
    (∀ cb ∈ inner.used_graphics_buffers,
        cb ∈ (flushTransfer signaled fresh inner).1.used_graphics_buffers ∨
          cb = (flushTransfer signaled fresh inner).1.current_graphics_buffer) ∧
    (∀ t : VkLifetimeTrackers, (VkLifetimeTrackers.reset t).is_empty = true) := by
  refine ⟨?_, ?_, ?_, ?_, fun t => rfl⟩
  · intro cb hmem hsig
    simp [tryFreeUsedBuffers, List.mem_filter, hmem, hsig]
  · intro cb hmem hnot
    rcases h : signaled cb.fence with _ | _
    · exfalso
      exact hnot (by simp [tryFreeUsedBuffers, List.mem_filter, hmem, h])
    · rfl
  · intro hreuse
    cases hu : inner.used_graphics_buffers with
    | nil =>
        exfalso
        simp [flushTransfer, hu] at hreuse
    | cons cb tail =>
        have hsig : signaled cb.fence = true := by
          have h2 : (flushTransfer signaled fresh inner).2 = signaled cb.fence := by
            simp [flushTransfer, hu]
          rw [h2] at hreuse
          exact hreuse
        refine ⟨cb, by simp [hu], hsig, ?_⟩
        simp [flushTransfer, hu, hsig]
  · intro cb hmem
    cases hu : inner.used_graphics_buffers with
    | nil => rw [hu] at hmem; cases hmem
    | cons c tail =>
        rw [hu] at hmem
        rcases hs : signaled c.fence with _ | _
        · left
          have hused : (flushTransfer signaled fresh inner).1.used_graphics_buffers =
              (c :: tail) ++ [inner.current_graphics_buffer] := by
            simp [flushTransfer, hu, hs]
          rw [hused]
          exact List.mem_append_left _ hmem
        · rcases List.mem_cons.mp hmem with h1 | h1
          · right
            have hcur : (flushTransfer signaled fresh inner).1.current_graphics_buffer = c := by
              simp [flushTransfer, hu, hs]
            rw [hcur, h1]
          · left
            have hused : (flushTransfer signaled fresh inner).1.used_graphics_buffers =
                tail ++ [inner.current_graphics_buffer] := by
              simp [flushTransfer, hu, hs]
            rw [hused]
            exact List.mem_append_left _ h1

/-- Witness for C7: with only fence 0 signaled, the pending buffer (fence 1)
survives try_free_used_buffers, and flush reuses the front used buffer whose
fence 0 is signaled. -/
theorem tracker_fence_gated_witness :
    exCbPending ∈ (tryFreeUsedBuffers exSignaled exInner).used_graphics_buffers ∧
    (flushTransfer exSignaled exFresh exInner).1.current_graphics_buffer =
      exCbSignaled := by
  have h := tracker_fence_gated exSignaled exInner exFresh
  constructor
  · exact h.1 exCbPending (by decide) (by decide)
  · obtain ⟨cb, hhead, _, hcur⟩ := h.2.2.1 (by decide)
    have : cb = exCbSignaled := by
      have hh : exInner.used_graphics_buffers.head? = some exCbSignaled := by decide
      rw [hh] at hhead
      injection hhead with h2
      exact h2.symm
    rw [hcur, this]

/-- Claim C5 counterexample: the free list is consumed first-in-first-out,
not last-in-first-out. In a slab whose free list holds exSliceHigh, releasing
exSliceLow appends it at the back, and the next allocation hands out
exSliceHigh — not the most recently released slice as LIFO order requires. -/
theorem slice_free_list_not_lifo :
    (dropVkBufferSlice exAllocC5 exSliceLow).buffers =
      [(exKey, [{ id := 0, slice_size := 256, slices := [exSliceHigh, exSliceLow] }])] ∧
    ((dropVkBufferSlice exAllocC5 exSliceLow).get_slice MemoryUsage.GpuOnly exUsage 100).1 =
      exSliceHigh ∧
    exSliceHigh ≠ exSliceLow := by decide

/-- Claim C5 (amended): dropping the last reference to a buffer slice returns
it to the free list of exactly its own parent slab — the slab whose id the
slice carries — by appending at the back (allocation pops the front, so the
free list is FIFO, not LIFO); every other slab is left untouched and no
buffer is allocated or destroyed. -/
theorem slice_release_same_slab (st : BufferAllocator) (s : VkBufferSlice) :
    (dropVkBufferSlice st s).alloc_count = st.alloc_count ∧
    (dropVkBufferSlice st s).next_id = st.next_id ∧
    (∀ (i : Nat) (kv : BufferKey × List VkBuffer), st.buffers[i]? = some kv →
      ∃ kv2, (dropVkBufferSlice st s).buffers[i]? = some kv2 ∧ kv2.1 = kv.1 ∧
        ∀ (j : Nat) (b : VkBuffer), kv.2[j]? = some b →
          ∃ b2, kv2.2[j]? = some b2 ∧
            (b.id ≠ s.buffer → b2 = b) ∧
            (b.id = s.buffer → b2 = { b with slices := b.slices ++ [s] })) := by
  refine ⟨rfl, rfl, ?_⟩
  intro i kv hkv
  refine ⟨(kv.1, kv.2.map (fun b => if b.id == s.buffer then b.return_slice s else b)),
    ?_, rfl, ?_⟩
  · simp [dropVkBufferSlice, List.getElem?_map, hkv]
  · intro j b hb
    refine ⟨if b.id == s.buffer then b.return_slice s else b, ?_, ?_, ?_⟩
    · simp [List.getElem?_map, hb]
    · intro hne
      simp [hne]
    · intro heq
      have hc : (b.id == s.buffer) = true := by simp [heq]
      rw [if_pos hc]
      rfl

/-- Witness for C5 (amended) at the concrete allocator state: releasing
exSliceLow touches only its parent slab, appending the slice at the back. -/
theorem slice_release_same_slab_witness :
    ∃ kv2, (dropVkBufferSlice exAllocC5 exSliceLow).buffers[0]? = some kv2 ∧
      kv2.1 = exKey ∧
      ∀ (j : Nat) (b : VkBuffer), [exSlabC5][j]? = some b →
        ∃ b2, kv2.2[j]? = some b2 ∧
          (b.id ≠ exSliceLow.buffer → b2 = b) ∧
          (b.id = exSliceLow.buffer →
            b2 = { b with slices := b.slices ++ [exSliceLow] }) := by
  exact (slice_release_same_slab exAllocC5 exSliceLow).2.2 0 (exKey, [exSlabC5]) (by decide)

theorem scanBuffers_none_iff (alignment length : Nat) (bs : List VkBuffer) :
    scanBuffers alignment length bs = none ↔
      ∀ b ∈ bs, ¬(b.slice_size % alignment = 0 ∧ length < b.slice_size ∧
        b.slices ≠ []) := by
  induction bs with
  | nil => simp [scanBuffers]
  | cons b rest ih =>
      have hstep : scanBuffers alignment length (b :: rest) = none ↔
          ((¬(b.slice_size % alignment = 0 ∧ length < b.slice_size) ∨ b.slices = []) ∧
            scanBuffers alignment length rest = none) := by
        rcases hcond : (b.slice_size % alignment == 0 && decide (length < b.slice_size))
            with _ | _
        · have hnc : ¬(b.slice_size % alignment = 0 ∧ length < b.slice_size) := by
            intro hc
            simp [hc.1, hc.2] at hcond
          cases hsc2 : scanBuffers alignment length rest with
          | none => simp [scanBuffers, hcond, hsc2, hnc]
          | some pr =>
              obtain ⟨sl, r2⟩ := pr
              simp [scanBuffers, hcond, hsc2, hnc]
        · have hc : b.slice_size % alignment = 0 ∧ length < b.slice_size := by
            simpa [Bool.and_eq_true] using hcond
          cases hbs : b.slices with
          | nil =>
              cases hsc2 : scanBuffers alignment length rest with
              | none => simp [scanBuffers, hcond, hbs, hsc2]
              | some pr =>
                  obtain ⟨sl, r2⟩ := pr
                  simp [scanBuffers, hcond, hbs, hsc2]
          | cons s tail =>
              simp [scanBuffers, hcond, hbs, hc.1, hc.2]
      rw [hstep, ih]
      constructor
      · rintro ⟨hb, hrest⟩ x hx
        rcases List.mem_cons.mp hx with h1 | h1
        · subst h1
          rcases hb with hb | hb
          · intro hcontra
            exact hb ⟨hcontra.1, hcontra.2.1⟩
          · intro hcontra
            exact hcontra.2.2 hb
        · exact hrest x h1
      · intro hall
        refine ⟨?_, fun x hx => hall x (List.mem_cons_of_mem b hx)⟩
        by_cases hbslices : b.slices = []
        · exact Or.inr hbslices
        · left
          intro hc
          exact hall b (List.mem_cons_self b rest) ⟨hc.1, hc.2, hbslices⟩

theorem chooseSliceSize_cases (length alignment : Nat) :
    chooseSliceSize length alignment = TINY_BUFFER_SLAB_SIZE ∨
    chooseSliceSize length alignment = SMALL_BUFFER_SLAB_SIZE ∨
    chooseSliceSize length alignment = BUFFER_SLAB_SIZE ∨
    chooseSliceSize length alignment = BIG_BUFFER_SLAB_SIZE := by
  unfold chooseSliceSize
  by_cases h1 : max length alignment ≤ TINY_BUFFER_SLAB_SIZE
  · left
    simp [h1]
  · by_cases h2 : length ≤ SMALL_BUFFER_SLAB_SIZE
    · right
      left
      simp [h1, h2]
    · by_cases h3 : length ≤ BUFFER_SLAB_SIZE
      · right
        right
        left
        simp [h1, h2, h3]
      · right
        right
        right
        simp [h1, h2, h3]

theorem new_slab_slices_ne (id length alignment : Nat) :
    (VkBuffer.new id (chooseSliceSize length alignment)
      (SLICED_BUFFER_SIZE / chooseSliceSize length alignment)).slices ≠ [] := by
  rcases chooseSliceSize_cases length alignment with h | h | h | h <;>
    rw [h] <;>
      simp [VkBuffer.new, List.range_eq_nil, SLICED_BUFFER_SIZE,
        TINY_BUFFER_SLAB_SIZE, SMALL_BUFFER_SLAB_SIZE, BUFFER_SLAB_SIZE,
        BIG_BUFFER_SLAB_SIZE]

/-- Claim C6 counterexample: after releasing a 256-byte slice back to its
(256-byte-tier) slab, a request for the same usage and for size 256 — which
fits that tier and its alignment — does not reuse the free slice: the scan
requires slice_size strictly greater than the request, so a fresh slab is
allocated and the allocation count grows. -/
theorem get_slice_no_reuse_at_tier_boundary :
    (∃ b ∈ bucketOf exAllocC6 exKey,
        b.slice_size % computeAlignment exAllocC6 exUsage = 0 ∧
        256 ≤ b.slice_size ∧ b.slices ≠ []) ∧
    (exAllocC6.get_slice MemoryUsage.GpuOnly exUsage 256).2.alloc_count =
      exAllocC6.alloc_count + 1 ∧
    (exAllocC6.get_slice MemoryUsage.GpuOnly exUsage 256).1.buffer ≠ exSliceLow.buffer := by
  decide

/-- Claim C6 (amended): get_slice allocates a dedicated single-slice buffer
for requests above the largest tier (4096), leaving the slab map untouched;
otherwise it keeps the allocation count unchanged exactly when some slab of
the (memory-usage, buffer-usage) bucket has a slice size that is a multiple
of the required alignment and strictly greater than the requested size and
has a free slice — in particular a released slice is reused without growing
the allocation count whenever the new request is strictly below the slab's
slice size — and only otherwise subdivides a new slab. -/
theorem get_slice_tiered (st : BufferAllocator) (mu : MemoryUsage)
    (bu : BufferUsage) (length : Nat) :
    (BIG_BUFFER_SLAB_SIZE < length →
      ((st.get_slice mu bu length).1.offset = 0 ∧
       (st.get_slice mu bu length).1.length = length ∧
       (st.get_slice mu bu length).2.alloc_count = st.alloc_count + 1 ∧
       (st.get_slice mu bu length).2.buffers = st.buffers)) ∧
    (length ≤ BIG_BUFFER_SLAB_SIZE →
      ((st.get_slice mu bu length).2.alloc_count = st.alloc_count ↔
        ∃ b ∈ bucketOf st { memory_usage := mu, buffer_usage := bu },
          b.slice_size % computeAlignment st bu = 0 ∧ length < b.slice_size ∧
            b.slices ≠ [])) := by
  constructor
  · intro hbig
    unfold BufferAllocator.get_slice
    rw [if_pos hbig]
    refine ⟨?_, rfl, rfl, rfl⟩
    show 0 * length = 0
    exact Nat.zero_mul length
  · intro hsmall
    have hbig : ¬ (BIG_BUFFER_SLAB_SIZE < length) := by omega
    have hiff : scanBuffers (computeAlignment st bu) length
        (bucketOf st { memory_usage := mu, buffer_usage := bu }) ≠ none ↔
        ∃ b ∈ bucketOf st { memory_usage := mu, buffer_usage := bu },
          b.slice_size % computeAlignment st bu = 0 ∧ length < b.slice_size ∧
            b.slices ≠ [] := by
      rw [Ne, scanBuffers_none_iff]
      push_neg
      constructor
      · rintro ⟨b, hb, hp⟩
        exact ⟨b, hb, hp⟩
      · rintro ⟨b, hb, hp⟩
        exact ⟨b, hb, hp⟩
    unfold BufferAllocator.get_slice
    rw [if_neg hbig]
    dsimp only
    cases hscan : scanBuffers (computeAlignment st bu) length
        (bucketOf st { memory_usage := mu, buffer_usage := bu }) with
    | some pr =>
        obtain ⟨slice, bucket2⟩ := pr
        have hex := hiff.mp (by rw [hscan]; intro hx; simp at hx)
        constructor
        · intro _
          exact hex
        · intro _
          rfl
    | none =>
        obtain ⟨s, rest, hsr⟩ : ∃ s rest,
            (VkBuffer.new st.next_id (chooseSliceSize length (computeAlignment st bu))
              (SLICED_BUFFER_SIZE /
                chooseSliceSize length (computeAlignment st bu))).slices = s :: rest := by
          cases hx : (VkBuffer.new st.next_id
              (chooseSliceSize length (computeAlignment st bu))
              (SLICED_BUFFER_SIZE /
                chooseSliceSize length (computeAlignment st bu))).slices with
          | nil => exact absurd hx (new_slab_slices_ne st.next_id length (computeAlignment st bu))
          | cons a b => exact ⟨a, b, rfl⟩
        rw [hsr]
        constructor
        · intro hcount
          exfalso
          have hcount2 : st.alloc_count + 1 = st.alloc_count := hcount
          omega
        · intro hex
          exact absurd hscan (hiff.mpr hex)

/-- Witness for C6 (amended): a request of 100 bytes against a slab of slice
size 256 holding one free slice reuses it without growing the allocation
count; a request of 5000 bytes gets a dedicated buffer. -/
theorem get_slice_tiered_witness :
    (exAllocC6.get_slice MemoryUsage.GpuOnly exUsage 100).2.alloc_count =
      exAllocC6.alloc_count ∧
    (exAllocC6.get_slice MemoryUsage.GpuOnly exUsage 5000).1.length = 5000 := by
  constructor
  · exact ((get_slice_tiered exAllocC6 MemoryUsage.GpuOnly exUsage 100).2
      (by decide)).mpr (by decide)
  · exact ((get_slice_tiered exAllocC6 MemoryUsage.GpuOnly exUsage 5000).1
      (by decide)).2.1

end SourceRendererSpec
